import Mathlib

/-!
Verification development for the Foreign-key-mongo repository.

The repository is a Node/Express server (src/index.js, first file section,
whose line numbers the claims cite) plus an auxiliary test server
(src/unnamed/part_000).  The server translates free-text search strings
into MongoDB filter objects via an external LLM call, post-processes the
translated filter (date-literal normalization, foreign-key redirect
detection, limit clamping), executes it against the users / events /
datings collections, optionally populates foreign references, and redacts
sensitive fields.

We shallowly embed the JavaScript values flowing through this pipeline as
the inductive type JValue below, and each relevant source function as a
Lean function over JValue.  Database reads are made observable: every
handler returns, besides its response envelope, the list of read
operations (collection name, filter object, limit argument) it issued, and
the document store itself is an explicit parameter of type Engine
(collection name and filter to list of matching documents), since the
Mongo matching engine is an external collaborator of the code under
verification.

Modelling notes on JavaScript semantics used below:
- A JS object is a finite ordered list of string-keyed fields; keys are
  unique in all objects produced by JSON.parse, and all concrete inputs
  used here have unique keys, so first-match lookup models property
  access.
- typeof x == "object" holds for plain objects, arrays, Date instances,
  ObjectId instances and null; property access on a missing key yields
  undefined; a for-in loop over a Date or ObjectId instance yields no keys
  (neither class has enumerable own properties), so copying such a value
  key-by-key produces the empty plain object.
- Falsy values are false, 0, the empty string, null and undefined; every
  object (including empty objects, arrays and Date instances) is truthy.
- Property access on null or undefined throws in JS; the source only
  dereferences values it has checked to be truthy, except inside
  convertDateFromString, where a literal null stored under the
  date-construct key would throw; the model returns a falsy answer there
  instead, and no theorem below depends on that corner.
-/

namespace ForeignKeyMongo

mutual

/-- A JavaScript runtime value as it flows through the search pipeline:
JSON scalars, undefined, native Date instances (carrying the argument the
Date constructor received), BSON ObjectId instances (carrying their hex
string), arrays and plain objects. -/
inductive JValue where
  | null
  | undefined
  | bool (b : Bool)
  | num (n : Int)
  | str (s : String)
  | date (arg : JValue)
  | oid (hex : String)
  | arr (elems : JArr)
  | obj (fields : JObj)
  deriving DecidableEq, Repr

/-- A JavaScript array of JValues. -/
inductive JArr where
  | nil
  | cons (hd : JValue) (tl : JArr)
  deriving DecidableEq, Repr

/-- The ordered field list of a JavaScript object. -/
inductive JObj where
  | nil
  | cons (key : String) (val : JValue) (tl : JObj)
  deriving DecidableEq, Repr

end

/-- Converts a Lean list to a JS array. -/
def JArr.ofList : List JValue → JArr
  | [] => .nil
  | x :: xs => .cons x (JArr.ofList xs)

/-- Converts a JS array to a Lean list. -/
def JArr.toList : JArr → List JValue
  | .nil => []
  | .cons x xs => x :: JArr.toList xs

/-- First-match lookup of a key in an object field list (models property
access on objects with unique keys). -/
def lookupField (k : String) : JObj → Option JValue
  | .nil => none
  | .cons key v tl => if key = k then some v else lookupField k tl

/-- Removes every binding of a key from an object field list (models the
rest pattern of object destructuring and exclusion projections). -/
def removeField (k : String) : JObj → JObj
  | .nil => .nil
  | .cons key v tl =>
      if key = k then removeField k tl else .cons key v (removeField k tl)

/-- JS truthiness: false, 0, the empty string, null and undefined are
falsy; every object, array, Date and ObjectId is truthy. -/
def truthy : JValue → Bool
  | .null => false
  | .undefined => false
  | .bool b => b
  | .num n => n != 0
  | .str s => s != ""
  | _ => true

/-- JS property access x.k: field lookup on plain objects (undefined when
the key is absent), undefined on every other value that carries no such
property.  (On null or undefined JS would throw; see the modelling notes.) -/
def getProp (v : JValue) (k : String) : JValue :=
  match v with
  | .obj kvs => (lookupField k kvs).getD .undefined
  | _ => .undefined

/-- Whether a value is a plain object carrying the given key. -/
def hasKey (k : String) (v : JValue) : Bool :=
  match v with
  | .obj kvs => (lookupField k kvs).isSome
  | _ => false

/-- JS toString as applied to identifier values in the source (ObjectId
hex string, strings and numbers verbatim).  Only string and ObjectId
identifiers occur in the data model; the catch-all mirrors the generic
object stringification. -/
def jsToString : JValue → String
  | .str s => s
  | .oid h => h
  | .num n => toString n
  | .bool b => cond b "true" "false"
  | .null => "null"
  | _ => "[object Object]"

/-- Whether the second character list starts with the first. -/
def charsLeadWith : List Char → List Char → Bool
  | [], _ => true
  | _ :: _, [] => false
  | p :: ps, c :: cs => p = c && charsLeadWith ps cs

/-- Whether a string starts with the given pattern (the JS startsWith). -/
def strStartsWith (s pat : String) : Bool :=
  charsLeadWith pat.data s.data

/-- ASCII lowercasing of one character. -/
def lowerChar (c : Char) : Char :=
  if 65 ≤ c.toNat ∧ c.toNat ≤ 90 then Char.ofNat (c.toNat + 32) else c

/-- Whether the first character list contains the second as a contiguous
run. -/
def charsContain : List Char → List Char → Bool
  | [], pat => pat.isEmpty
  | l@(_ :: rest), pat => charsLeadWith pat l || charsContain rest pat

/-- The value of one decimal digit character (code points 48 to 57). -/
def digitVal (c : Char) : Option Nat :=
  if 48 ≤ c.toNat ∧ c.toNat ≤ 57 then some (c.toNat - 48) else none

/-- Accumulating decimal parse of a digit run; fails on any non-digit. -/
def digitsValAux : List Char → Nat → Option Nat
  | [], acc => some acc
  | c :: rest, acc =>
      match digitVal c with
      | some d => digitsValAux rest (acc * 10 + d)
      | none => none

/-- Decimal value of a non-empty digit run. -/
def digitsVal : List Char → Option Nat
  | [] => none
  | l => digitsValAux l 0

/-- Integer value of a decimal string with optional leading minus sign
(models the JS Number coercion on integer strings; non-integer strings
yield none, standing for NaN). -/
def jsStringToInt (s : String) : Option Int :=
  match s.data with
  | '-' :: rest => (digitsVal rest).map (fun n => -(n : Int))
  | l => (digitsVal l).map (fun n => (n : Int))

mutual

/-- Source: convertDateFromString (src/index.js lines 382 to 396).
Recursively walks the structure; a plain object whose "$dateFromString"
field holds a value with a truthy dateString property is replaced by a
native Date built from that dateString value; arrays map recursively;
every other object is copied field by field; scalars pass through.
A native Date or ObjectId reaching the object branch is copied by the
for-in loop into an empty plain object, since neither has enumerable own
properties. -/
def convertDateFromString : JValue → JValue
  | .arr xs => .arr (convertDateFromStringArr xs)
  | .obj kvs =>
      match lookupField "$dateFromString" kvs with
      | some spec =>
          if truthy (getProp spec "dateString") then
            .date (getProp spec "dateString")
          else
            .obj (convertDateFromStringObj kvs)
      | none => .obj (convertDateFromStringObj kvs)
  | .date _ => .obj .nil
  | .oid _ => .obj .nil
  | v => v

/-- Elementwise normalization of a JS array. -/
def convertDateFromStringArr : JArr → JArr
  | .nil => .nil
  | .cons x xs => .cons (convertDateFromString x) (convertDateFromStringArr xs)

/-- Fieldwise normalization of an object field list. -/
def convertDateFromStringObj : JObj → JObj
  | .nil => .nil
  | .cons k v tl => .cons k (convertDateFromString v) (convertDateFromStringObj tl)

end

mutual

/-- Replaces every native Date and ObjectId instance in a structure by the
empty plain object and leaves everything else intact.  This is what a
second for-in copy pass does to the non-plain objects of its input; used
to state what applying convertDateFromString twice computes. -/
def stripDates : JValue → JValue
  | .arr xs => .arr (stripDatesArr xs)
  | .obj kvs => .obj (stripDatesObj kvs)
  | .date _ => .obj .nil
  | .oid _ => .obj .nil
  | v => v

/-- Elementwise stripDates on a JS array. -/
def stripDatesArr : JArr → JArr
  | .nil => .nil
  | .cons x xs => .cons (stripDates x) (stripDatesArr xs)

/-- Fieldwise stripDates on an object field list. -/
def stripDatesObj : JObj → JObj
  | .nil => .nil
  | .cons k v tl => .cons k (stripDates v) (stripDatesObj tl)

end

/-- Source: hideSensitive (src/index.js lines 397 to 403, first file
section).  When the process-wide ALLOW_PII flag is false the email field
is destructured away and the rest returned; otherwise the document passes
through unchanged.  (This first section of the file removes only email;
its accompanying projection comment reads "Keep salary field visible".) -/
def hideSensitive (allowPII : Bool) (doc : JValue) : JValue :=
  if allowPII then doc
  else
    match doc with
    | .obj kvs => .obj (removeField "email" kvs)
    | v => v

/-- Source: the second file section of src/index.js (lines 1506 to 1512)
carries a variant of hideSensitive that destructures away both Salary and
email.  Embedded for comparison; the claims cite the first section. -/
def hideSensitiveSecondSection (allowPII : Bool) (doc : JValue) : JValue :=
  if allowPII then doc
  else
    match doc with
    | .obj kvs => .obj (removeField "email" (removeField "Salary" kvs))
    | v => v

/-- The Mongo-side projection used by the first-section endpoints:
ALLOW_PII yields the empty projection, otherwise the projection excludes
email (the store removes that field from each returned document). -/
def projectUser (allowPII : Bool) (doc : JValue) : JValue :=
  if allowPII then doc
  else
    match doc with
    | .obj kvs => .obj (removeField "email" kvs)
    | v => v

/-- JS Number coercion restricted to the value shapes a JSON request body
can carry: numbers verbatim, null to 0, booleans to 0 or 1, numeric
strings parsed (the empty string to 0), everything else NaN (modelled as
none).  Fractional numeric strings are out of scope of the claims and
coerce to none here. -/
def jsNumber : JValue → Option Int
  | .num n => some n
  | .null => some 0
  | .bool b => some (cond b 1 0)
  | .str s => if s = "" then some 0 else jsStringToInt s
  | _ => none

/-- The subexpression Number(limit) or-else 10: NaN and 0 fall back to the
default 10, every other number (negative numbers included) passes
through. -/
def numOr10 (v : JValue) : Int :=
  match jsNumber v with
  | none => 10
  | some 0 => 10
  | some n => n

/-- Source: the limit clamp Math.min(Number(limit) or-else 10, ceiling)
computed by every handler (src/index.js line 571 with ceiling 100, line
700 with ceiling 30). -/
def effLimit (v : JValue) (ceiling : Int) : Int :=
  min (numOr10 v) ceiling

/-- The number of documents a cursor with the given limit yields from a
matching list (the store applies the limit after matching). -/
def takeLimit (l : Int) (docs : List JValue) : List JValue :=
  docs.take l.toNat

/-- A no-match sentinel filter object with the given identifier string. -/
def sentinelFilter (s : String) : JValue :=
  .obj (.cons "_id" (.str s) .nil)

/-- Whether a filter is one of the deliberate no-match sentinels: a plain
object whose only field binds the key underscore-id to a string starting
with "intentionally_no_match". -/
def isNoMatchSentinel : JValue → Bool
  | .obj (.cons "_id" (.str s) .nil) => strStartsWith s "intentionally_no_match"
  | _ => false

/-- The outcome of the external translator step as the source case-splits
on it: the OpenAI client missing or the prompt empty, the API call
throwing, the returned text empty after trimming, JSON.parse throwing, or
JSON.parse succeeding with a query object. -/
inductive TranslatorStep where
  | noClientOrEmptyPrompt
  | apiError
  | emptyText
  | parseError
  | ok (q : JValue)
  deriving DecidableEq, Repr

/-- Source: parsePromptToMongoQuery (src/index.js lines 496 to 546, first
file section).  Every failure mode degrades to a distinct no-match
sentinel; a successfully parsed query is returned verbatim. -/
def parsePromptToMongoQuery : TranslatorStep → JValue
  | .noClientOrEmptyPrompt => sentinelFilter "intentionally_no_match_on_empty_prompt"
  | .apiError => sentinelFilter "intentionally_no_match_on_api_error"
  | .emptyText => sentinelFilter "intentionally_no_match_on_empty_response"
  | .parseError => sentinelFilter "intentionally_no_match_on_parse_error"
  | .ok q => q

/-- The document store: collection name and filter to the ordered list of
matching documents.  Matching semantics belong to the external Mongo
engine, so the store is a parameter of every handler model. -/
def Engine : Type := String → JValue → List JValue

/-- One database read operation issued by a handler: target collection,
filter object, and the limit argument of the cursor if one was applied. -/
structure ReadOp where
  coll : String
  filter : JValue
  limitArg : Option Int
  deriving DecidableEq, Repr

/-- The uniform response envelope of the search endpoints. -/
structure SearchEnvelope where
  count : Nat
  results : List JValue
  deriving DecidableEq, Repr

/-- A handler result: the response envelope plus the ordered list of
database reads the handler issued. -/
structure HandlerOut where
  resp : SearchEnvelope
  reads : List ReadOp
  deriving DecidableEq, Repr

/-- Worker of insertion-order deduplication: drops elements already seen. -/
def dedupFirstAux (seen : List String) : List String → List String
  | [] => []
  | x :: xs =>
      if seen.contains x then dedupFirstAux seen xs
      else x :: dedupFirstAux (x :: seen) xs

/-- Insertion-order deduplication, as Array.from(new Set(xs)) computes it. -/
def dedupFirst (l : List String) : List String :=
  dedupFirstAux [] l

/-- The participant id list of an event document:
(event.participant_ids or-else empty).  Foreign identifiers are arrays of
identifier values per the data model. -/
def participantIdList (ev : JValue) : List JValue :=
  match getProp ev "participant_ids" with
  | .arr xs => xs.toList
  | _ => []

/-- The partner id list of a dating document:
[dating.Male_id, dating.Female_id].filter(Boolean). -/
def partnerIdList (d : JValue) : List JValue :=
  [getProp d "Male_id", getProp d "Female_id"].filter (fun v => truthy v)

/-- The deduplicated union of participant id strings over a page of event
documents. -/
def eventUserIdStrings (docs : List JValue) : List String :=
  dedupFirst (docs.flatMap (fun d => (participantIdList d).map jsToString))

/-- The deduplicated union of partner id strings over a page of dating
documents. -/
def datingUserIdStrings (docs : List JValue) : List String :=
  dedupFirst (docs.flatMap (fun d => (partnerIdList d).map jsToString))

/-- The batched identity lookup filter over a set of ObjectIds. -/
def idFilter (ids : List JValue) : JValue :=
  .obj (.cons "_id" (.obj (.cons "$in" (.arr (JArr.ofList ids)) .nil)) .nil)

/-- Foreign-key redirect detection as the users handler performs it:
filter truthy, filter.__foreign_key_query truthy and filter.__criteria
truthy; yields the marker value and the criteria sub-query. -/
def fkParts (filter : JValue) : Option (JValue × JValue) :=
  if truthy filter ∧ truthy (getProp filter "__foreign_key_query")
      ∧ truthy (getProp filter "__criteria") then
    some (getProp filter "__foreign_key_query", getProp filter "__criteria")
  else
    none

/-- The limit clamp recomputed inside processForeignKeyQuery:
Math.min(Number(limit) or-else 10, 100) on a numeric argument. -/
def fkClamp (l : Int) : Int :=
  min (if l = 0 then 10 else l) 100

/-- Source: processForeignKeyQuery (src/index.js lines 409 to 493).  For
the events marker: run the date-normalized criteria against the events
collection (no limit), short-circuit to an empty envelope when no events
or no participant ids exist, otherwise fetch users by the deduplicated
ObjectId set with the clamped limit and the email-excluding projection,
and redact each result.  The dating marker does the same over the datings
collection and the partner id pair.  Any other marker yields an empty
envelope with no reads. -/
def processForeignKeyQuery (find : Engine) (allowPII : Bool)
    (foreignKeyQuery criteria : JValue) (limit : Int) : HandlerOut :=
  let l := fkClamp limit
  if foreignKeyQuery = .str "events" then
    let convertedCriteria := convertDateFromString criteria
    let events := find "events" convertedCriteria
    let evRead : ReadOp := ⟨"events", convertedCriteria, none⟩
    if events.isEmpty then
      { resp := ⟨0, []⟩, reads := [evRead] }
    else
      let userIds := (eventUserIdStrings events).map JValue.oid
      if userIds.isEmpty then
        { resp := ⟨0, []⟩, reads := [evRead] }
      else
        let users := (takeLimit l (find "users" (idFilter userIds))).map
          (projectUser allowPII)
        let safe := users.map (hideSensitive allowPII)
        { resp := ⟨safe.length, safe⟩,
          reads := [evRead, ⟨"users", idFilter userIds, some l⟩] }
  else if foreignKeyQuery = .str "dating" then
    let convertedCriteria := convertDateFromString criteria
    let datings := find "datings" convertedCriteria
    let dtRead : ReadOp := ⟨"datings", convertedCriteria, none⟩
    if datings.isEmpty then
      { resp := ⟨0, []⟩, reads := [dtRead] }
    else
      let userIds := (datingUserIdStrings datings).map JValue.oid
      if userIds.isEmpty then
        { resp := ⟨0, []⟩, reads := [dtRead] }
      else
        let users := (takeLimit l (find "users" (idFilter userIds))).map
          (projectUser allowPII)
        let safe := users.map (hideSensitive allowPII)
        { resp := ⟨safe.length, safe⟩,
          reads := [dtRead, ⟨"users", idFilter userIds, some l⟩] }
  else
    { resp := ⟨0, []⟩, reads := [] }

/-- Source: the POST /search/users handler (src/index.js lines 567 to
604, first file section), starting after the translator call: clamp the
limit to at most 100, redirect foreign-key queries, otherwise
date-normalize the filter, run it against the users collection with the
email-excluding projection and the clamped limit, and redact every
result. -/
def searchUsers (find : Engine) (allowPII : Bool) (filter0 : JValue)
    (limitReq : JValue) : HandlerOut :=
  let l := effLimit limitReq 100
  match fkParts filter0 with
  | some (fkq, criteria) => processForeignKeyQuery find allowPII fkq criteria l
  | none =>
      let filter := convertDateFromString filter0
      let fetched := (takeLimit l (find "users" filter)).map (projectUser allowPII)
      let safe := fetched.map (hideSensitive allowPII)
      { resp := ⟨safe.length, safe⟩, reads := [⟨"users", filter, some l⟩] }

/-- Appends a field binding at the end of a field list. -/
def JObj.appendField (kvs : JObj) (k : String) (v : JValue) : JObj :=
  match kvs with
  | .nil => .cons k v .nil
  | .cons key val tl => .cons key val (tl.appendField k v)

/-- Sets (or overwrites) one field of a plain object, as the spread
pattern with one extra literal field computes it; lookup semantics agree
with JS even though JS keeps the original position of an overwritten key.
Non-objects are returned unchanged. -/
def setField (k : String) (v : JValue) (doc : JValue) : JValue :=
  match doc with
  | .obj kvs => .obj ((removeField k kvs).appendField k v)
  | d => d

/-- First-match lookup in a string-keyed association list (models
Map.get; the maps built by the handlers have unique keys since a find
returns each document once). -/
def alistGet (m : List (String × JValue)) (k : String) : Option JValue :=
  (m.find? (fun kv => kv.1 = k)).map (fun kv => kv.2)

/-- The identifier-to-redacted-document map the populate blocks build:
new Map(users.map(u => [u._id.toString(), hideSensitive(u)])). -/
def usersByIdMap (allowPII : Bool) (users : List JValue) :
    List (String × JValue) :=
  users.map (fun u => (jsToString (getProp u "_id"), hideSensitive allowPII u))

/-- One populated participant slot of an event document:
usersById.get(id.toString()) or-else the placeholder carrying only the
original identifier. -/
def populateParticipant (usersById : List (String × JValue)) (id : JValue) :
    JValue :=
  (alistGet usersById (jsToString id)).getD (.obj (.cons "_id" id .nil))

/-- The populated form of one event document: the original fields plus a
participants array with one slot per original participant id. -/
def populateEventDoc (usersById : List (String × JValue)) (ev : JValue) :
    JValue :=
  setField "participants"
    (.arr (JArr.ofList ((participantIdList ev).map (populateParticipant usersById))))
    ev

/-- One populated partner slot of a dating document: when the partner id
is truthy, the map lookup (undefined when the user is missing), otherwise
null. -/
def populatePartner (usersById : List (String × JValue)) (id : JValue) :
    JValue :=
  if truthy id then (alistGet usersById (jsToString id)).getD .undefined
  else .null

/-- The populated form of one dating document: the original fields plus
Male and Female partner slots. -/
def populateDatingDoc (usersById : List (String × JValue)) (d : JValue) :
    JValue :=
  setField "Female" (populatePartner usersById (getProp d "Female_id"))
    (setField "Male" (populatePartner usersById (getProp d "Male_id")) d)

/-- Source: the POST /search/events handler (src/index.js lines 607 to
648, first file section): clamp the limit, date-normalize the translated
filter, fetch the event page, and when populate is on and the page is
non-empty issue exactly one batched users read over the deduplicated
participant ObjectId set and attach one participants slot per reference
(placeholder on a dangling reference). -/
def searchEvents (find : Engine) (allowPII : Bool) (filter0 : JValue)
    (limitReq : JValue) (populate : Bool) : HandlerOut :=
  let l := effLimit limitReq 100
  let filter := convertDateFromString filter0
  let docs := takeLimit l (find "events" filter)
  let evRead : ReadOp := ⟨"events", filter, some l⟩
  if populate ∧ ¬ docs.isEmpty then
    let userIds := (eventUserIdStrings docs).map JValue.oid
    let users := (find "users" (idFilter userIds)).map (projectUser allowPII)
    let usersById := usersByIdMap allowPII users
    let docs2 := docs.map (populateEventDoc usersById)
    { resp := ⟨docs2.length, docs2⟩,
      reads := [evRead, ⟨"users", idFilter userIds, none⟩] }
  else
    { resp := ⟨docs.length, docs⟩, reads := [evRead] }

/-- Source: the POST /search/dating handler (src/index.js lines 651 to
693, first file section): clamp the limit, date-normalize the translated
filter, fetch the dating page from the datings collection, and when
populate is on and the page is non-empty issue exactly one batched users
read over the deduplicated partner ObjectId set and attach Male and
Female slots (undefined on a dangling reference, null on an absent one). -/
def searchDating (find : Engine) (allowPII : Bool) (filter0 : JValue)
    (limitReq : JValue) (populate : Bool) : HandlerOut :=
  let l := effLimit limitReq 100
  let filter := convertDateFromString filter0
  let docs := takeLimit l (find "datings" filter)
  let dtRead : ReadOp := ⟨"datings", filter, some l⟩
  if populate ∧ ¬ docs.isEmpty then
    let userIds := (datingUserIdStrings docs).map JValue.oid
    let users := (find "users" (idFilter userIds)).map (projectUser allowPII)
    let usersById := usersByIdMap allowPII users
    let docs2 := docs.map (populateDatingDoc usersById)
    { resp := ⟨docs2.length, docs2⟩,
      reads := [dtRead, ⟨"users", idFilter userIds, none⟩] }
  else
    { resp := ⟨docs.length, docs⟩, reads := [dtRead] }

/-- The conversion applied to each participant id by the MCP tool
handler: a string becomes an ObjectId, everything else passes through. -/
def mcpIdOfParticipant : JValue → JValue
  | .str s => .oid s
  | v => v

/-- The per-event populate step of the search_events MCP tool handler
(src/index.js lines 1021 to 1040, first file section): when the event
carries an array of participant ids, issue one users read for that event
and attach the fetched documents as participantDetails. -/
def mcpPopulateEvent (find : Engine) (allowPII : Bool) (ev : JValue) :
    JValue × List ReadOp :=
  match getProp ev "participant_ids" with
  | .arr xs =>
      let userIds := xs.toList.map mcpIdOfParticipant
      let users := (find "users" (idFilter userIds)).map (projectUser allowPII)
      (setField "participantDetails" (.arr (JArr.ofList users)) ev,
        [⟨"users", idFilter userIds, none⟩])
  | _ => (ev, [])

/-- Source: the search_events MCP tool handler (src/index.js lines 1010
to 1059, first file section): clamp the limit, date-normalize, fetch the
event page, and when populate is on run the per-event populate loop,
issuing one users read per event that carries a participant array. -/
def mcpSearchEvents (find : Engine) (allowPII : Bool) (filter0 : JValue)
    (limitReq : JValue) (populate : Bool) : HandlerOut :=
  let l := effLimit limitReq 100
  let baseFilter := convertDateFromString filter0
  let results := takeLimit l (find "events" baseFilter)
  let evRead : ReadOp := ⟨"events", baseFilter, some l⟩
  if populate then
    let stepped := results.map (mcpPopulateEvent find allowPII)
    { resp := ⟨stepped.length, stepped.map (fun p => p.1)⟩,
      reads := evRead :: stepped.flatMap (fun p => p.2) }
  else
    { resp := ⟨results.length, results⟩, reads := [evRead] }

/-- The combined response of the search-all handler: total count, one
envelope per collection, and the three raw translated queries. -/
structure AllOut where
  count : Nat
  users : SearchEnvelope
  events : SearchEnvelope
  dating : SearchEnvelope
  queries : JValue × JValue × JValue
  reads : List ReadOp
  deriving DecidableEq, Repr

/-- The populate-events block of the search-all handler: with a non-empty
event page and a non-empty deduplicated participant id set, one batched
users read and in-place attachment of participants slots; otherwise no
read and no change. -/
def searchAllPopulateEvents (find : Engine) (allowPII : Bool)
    (eventsResults : List JValue) : List JValue × List ReadOp :=
  if eventsResults.isEmpty then (eventsResults, [])
  else
    let userIds := (eventUserIdStrings eventsResults).map JValue.oid
    if userIds.isEmpty then (eventsResults, [])
    else
      let users := (find "users" (idFilter userIds)).map (projectUser allowPII)
      let usersById := usersByIdMap allowPII users
      (eventsResults.map (populateEventDoc usersById),
        [⟨"users", idFilter userIds, none⟩])

/-- The populate-dating block of the search-all handler, symmetric to the
events block over the partner id pair. -/
def searchAllPopulateDating (find : Engine) (allowPII : Bool)
    (datingResults : List JValue) : List JValue × List ReadOp :=
  if datingResults.isEmpty then (datingResults, [])
  else
    let userIds := (datingUserIdStrings datingResults).map JValue.oid
    if userIds.isEmpty then (datingResults, [])
    else
      let users := (find "users" (idFilter userIds)).map (projectUser allowPII)
      let usersById := usersByIdMap allowPII users
      (datingResults.map (populateDatingDoc usersById),
        [⟨"users", idFilter userIds, none⟩])

/-- Source: the POST /search/all handler (src/index.js lines 696 to 853,
first file section): clamp the limit to at most 30, obtain the three
translated filters, redirect a users foreign-key query, execute each
truthy filter (the empty object deliberately included) against its
collection, optionally populate, and assemble the combined envelope with
the three raw queries. -/
def searchAll (find : Engine) (allowPII : Bool)
    (usersFilter eventsFilter datingFilter : JValue)
    (limitReq : JValue) (populate : Bool) : AllOut :=
  let l := effLimit limitReq 30
  let usersPhase : List JValue × List ReadOp :=
    match fkParts usersFilter with
    | some (fkq, criteria) =>
        let fkResult := processForeignKeyQuery find allowPII fkq criteria l
        (fkResult.resp.results, fkResult.reads)
    | none =>
        if truthy usersFilter then
          let f := convertDateFromString usersFilter
          (((takeLimit l (find "users" f)).map (projectUser allowPII)).map
              (hideSensitive allowPII),
            [⟨"users", f, some l⟩])
        else ([], [])
  let eventsPhase : List JValue × List ReadOp :=
    if truthy eventsFilter then
      let f := convertDateFromString eventsFilter
      (takeLimit l (find "events" f), [⟨"events", f, some l⟩])
    else ([], [])
  let datingPhase : List JValue × List ReadOp :=
    if truthy datingFilter then
      let f := convertDateFromString datingFilter
      (takeLimit l (find "datings" f), [⟨"datings", f, some l⟩])
    else ([], [])
  let eventsPop :=
    if populate then searchAllPopulateEvents find allowPII eventsPhase.1
    else (eventsPhase.1, [])
  let datingPop :=
    if populate then searchAllPopulateDating find allowPII datingPhase.1
    else (datingPhase.1, [])
  { count := usersPhase.1.length + eventsPop.1.length + datingPop.1.length,
    users := ⟨usersPhase.1.length, usersPhase.1⟩,
    events := ⟨eventsPop.1.length, eventsPop.1⟩,
    dating := ⟨datingPop.1.length, datingPop.1⟩,
    queries := (usersFilter, eventsFilter, datingFilter),
    reads := usersPhase.2 ++ eventsPhase.2 ++ datingPhase.2
      ++ eventsPop.2 ++ datingPop.2 }

/-- Source: runMongoQuery (src/unnamed/part_000 lines 413 to 431): a
falsy query or an empty plain object short-circuits to an empty envelope
with no database read at all; any other query is executed verbatim with
the limit capped into the range 1 to 1000. -/
def runMongoQuery (find : Engine) (collectionName : String)
    (mongoQuery : JValue) (limit : Int) : SearchEnvelope × List ReadOp :=
  if ¬ truthy mongoQuery ∨ mongoQuery = .obj .nil then
    (⟨0, []⟩, [])
  else
    let cappedLimit := min (max limit 1) 1000
    let results := takeLimit cappedLimit (find collectionName mongoQuery)
    (⟨results.length, results⟩, [⟨collectionName, mongoQuery, some cappedLimit⟩])

/-- Case-insensitive substring test, modelling the Mongo regex match with
the ignore-case option that a name-match augmenter would use. -/
def containsInsensitive (hay needle : String) : Bool :=
  charsContain (hay.data.map lowerChar) (needle.data.map lowerChar)

/-- Whether at least one identity record in a users list has a display
name that case-insensitively contains the free-text search string. -/
def someNameMatches (users : List JValue) (qtext : String) : Bool :=
  users.any (fun u =>
    match getProp u "Name" with
    | .str name => containsInsensitive name qtext
    | _ => false)

/-- The event page a search-events invocation fetches before populating. -/
def eventsPage (find : Engine) (filter0 limitReq : JValue) : List JValue :=
  takeLimit (effLimit limitReq 100) (find "events" (convertDateFromString filter0))

/-- The dating page a search-dating invocation fetches before populating. -/
def datingsPage (find : Engine) (filter0 limitReq : JValue) : List JValue :=
  takeLimit (effLimit limitReq 100) (find "datings" (convertDateFromString filter0))

/-- Whether an event document carries an array under participant_ids (the
condition under which the MCP populate loop issues a users read for it). -/
def hasParticipantArray (ev : JValue) : Bool :=
  match getProp ev "participant_ids" with
  | .arr _ => true
  | _ => false

/-- The secondary collection a foreign-key marker value names. -/
def fkSecondaryColl (name : String) : String :=
  if name = "events" then "events" else "datings"

/-- The deduplicated foreign ObjectId set a foreign-key redirect collects
from the secondary page. -/
def fkCollectedIds (name : String) (page : List JValue) : List JValue :=
  (if name = "events" then eventUserIdStrings page
   else datingUserIdStrings page).map JValue.oid

/-- A sample identity record carrying name, compensation and contact
email. -/
def userDocExample : JValue :=
  .obj (.cons "Name" (.str "A")
    (.cons "Salary" (.num 100)
      (.cons "email" (.str "a@b.c") .nil)))

/-- A store whose users collection matches this one identity record under
every filter and whose other collections are empty. -/
def userDocEngine : Engine :=
  fun c _ => if c = "users" then [userDocExample] else []

/-- A store with no matching documents in any collection. -/
def emptyEngine : Engine :=
  fun _ _ => []

/-- A date-construct marker as the translator emits it. -/
def dateMarkerExample : JValue :=
  .obj (.cons "$dateFromString"
    (.obj (.cons "dateString" (.str "2025-11-01T00:00:00Z") .nil)) .nil)

/-- A pairing record whose first-partner reference dangles (no matching
identity record exists). -/
def datingDanglingExample : JValue :=
  .obj (.cons "_id" (.oid "d1") (.cons "Male_id" (.oid "aaa") .nil))

/-- A store holding exactly the dangling pairing record and no identity
records. -/
def danglingEngine : Engine :=
  fun c _ => if c = "datings" then [datingDanglingExample] else []

/-- A gathering record with one participant reference. -/
def eventDocOne : JValue :=
  .obj (.cons "_id" (.oid "e1")
    (.cons "participant_ids" (.arr (.cons (.oid "u1") .nil)) .nil))

/-- A second gathering record with one participant reference. -/
def eventDocTwo : JValue :=
  .obj (.cons "_id" (.oid "e2")
    (.cons "participant_ids" (.arr (.cons (.oid "u2") .nil)) .nil))

/-- A store whose events collection matches two gathering records. -/
def twoEventsEngine : Engine :=
  fun c _ => if c = "events" then [eventDocOne, eventDocTwo] else []

/-- A translated foreign-key redirect query: users which attend Meetup
events. -/
def fkFilterExample : JValue :=
  .obj (.cons "__foreign_key_query" (.str "events")
    (.cons "__criteria" (.obj (.cons "Event_type" (.str "Meetup") .nil)) .nil))

/-- The criteria sub-query of the sample foreign-key redirect. -/
def fkCriteriaExample : JValue :=
  .obj (.cons "Event_type" (.str "Meetup") .nil)

/-- A store for the foreign-key redirect example: the criteria matches
one gathering record and the users collection holds one identity record. -/
def fkEngine : Engine :=
  fun c _ =>
    if c = "events" then [eventDocOne]
    else if c = "users" then [userDocExample] else []

/-- An identity record whose display name contains the free text of the
name-match scenario. -/
def johnUserExample : JValue :=
  .obj (.cons "Name" (.str "John Doe") .nil)

/-- A translated events filter with no OR-list, as the translator returns
for a location search. -/
def eventsFilterExample : JValue :=
  .obj (.cons "Event_location" (.str "mumbai") .nil)

/-- A store whose identity collection holds the matching-name record and
whose events collection is empty. -/
def johnEngine : Engine :=
  fun c _ => if c = "users" then [johnUserExample] else []

/-!
Helper lemmas shared by the claim theorems.
-/

theorem convert_obj_eq (kvs : JObj) :
    convertDateFromString (.obj kvs)
      = (match lookupField "$dateFromString" kvs with
         | some spec =>
             if truthy (getProp spec "dateString") then
               .date (getProp spec "dateString")
             else .obj (convertDateFromStringObj kvs)
         | none => .obj (convertDateFromStringObj kvs)) := rfl

theorem lookupField_removeField_self (k : String) :
    ∀ kvs : JObj, lookupField k (removeField k kvs) = none
  | .nil => rfl
  | .cons key v tl => by
      by_cases h : key = k
      · simp [removeField, h, lookupField_removeField_self k tl]
      · simp [removeField, lookupField, h, lookupField_removeField_self k tl]

theorem hasKey_email_hideSensitive (doc : JValue) :
    hasKey "email" (hideSensitive false doc) = false := by
  cases doc <;>
    simp [hideSensitive, hasKey, lookupField_removeField_self]

theorem hideSensitive_true (doc : JValue) : hideSensitive true doc = doc := rfl

theorem mem_searchUsers_results (find : Engine) (pii : Bool)
    (f lr r : JValue) (hr : r ∈ (searchUsers find pii f lr).resp.results) :
    ∃ u, r = hideSensitive pii u := by
  unfold searchUsers at hr
  split at hr
  · unfold processForeignKeyQuery at hr
    dsimp only at hr
    split at hr
    · split at hr
      · simp at hr
      · split at hr
        · simp at hr
        · simp only [List.mem_map] at hr
          obtain ⟨u, _, hu⟩ := hr
          exact ⟨u, hu.symm⟩
    · split at hr
      · split at hr
        · simp at hr
        · split at hr
          · simp at hr
          · simp only [List.mem_map] at hr
            obtain ⟨u, _, hu⟩ := hr
            exact ⟨u, hu.symm⟩
      · simp at hr
  · dsimp only at hr
    simp only [List.mem_map] at hr
    obtain ⟨u, _, hu⟩ := hr
    exact ⟨u, hu.symm⟩

theorem lookupField_appendField_removed (k : String) (v : JValue) :
    ∀ kvs : JObj, lookupField k ((removeField k kvs).appendField k v) = some v
  | .nil => by simp [removeField, JObj.appendField, lookupField]
  | .cons key w tl => by
      by_cases h : key = k
      · simpa [removeField, h] using lookupField_appendField_removed k v tl
      · simp [removeField, h, JObj.appendField, lookupField,
          lookupField_appendField_removed k v tl]

theorem getProp_setField_obj (k : String) (v : JValue) (kvs : JObj) :
    getProp (setField k v (.obj kvs)) k = v := by
  simp [setField, getProp, lookupField_appendField_removed]

theorem lookupField_convertObj (k : String) :
    ∀ kvs : JObj, lookupField k (convertDateFromStringObj kvs)
      = (lookupField k kvs).map convertDateFromString
  | .nil => rfl
  | .cons key v tl => by
      by_cases h : key = k
      · simp [convertDateFromStringObj, lookupField, h]
      · simp [convertDateFromStringObj, lookupField, h,
          lookupField_convertObj k tl]

theorem convert_falsy (w : JValue) (hw : truthy w = false) :
    convertDateFromString w = w := by
  cases w <;> simp_all [truthy, convertDateFromString]

theorem getDateString_convertObj (kvs : JObj)
    (hv : truthy (getProp (.obj kvs) "dateString") = false) :
    truthy (getProp (.obj (convertDateFromStringObj kvs)) "dateString")
      = false := by
  simp only [getProp, lookupField_convertObj]
  cases hds : lookupField "dateString" kvs with
  | none => simp [truthy]
  | some w =>
      have hw : truthy w = false := by
        simpa [getProp, hds] using hv
      simp [hds, convert_falsy w hw, hw]

theorem getDateString_convert_falsy (v : JValue)
    (hv : truthy (getProp v "dateString") = false) :
    truthy (getProp (convertDateFromString v) "dateString") = false := by
  cases v with
  | obj kvs =>
      rw [convert_obj_eq]
      cases hspec : lookupField "$dateFromString" kvs with
      | none => exact getDateString_convertObj kvs hv
      | some spec =>
          dsimp only
          cases ht : truthy (getProp spec "dateString") with
          | true => simp [getProp, truthy]
          | false =>
              simp only [Bool.false_eq_true, if_false]
              exact getDateString_convertObj kvs hv
  | arr xs => simp [convertDateFromString, getProp, truthy]
  | date a => simp [convertDateFromString, getProp, lookupField, truthy]
  | oid h => simp [convertDateFromString, getProp, lookupField, truthy]
  | null => simpa [convertDateFromString] using hv
  | undefined => simpa [convertDateFromString] using hv
  | bool b => simpa [convertDateFromString] using hv
  | num n => simpa [convertDateFromString] using hv
  | str s => simpa [convertDateFromString] using hv

theorem convert_obj_none (kvs : JObj)
    (h : lookupField "$dateFromString" kvs = none) :
    convertDateFromString (.obj kvs) = .obj (convertDateFromStringObj kvs) := by
  simp only [convert_obj_eq, h]

theorem convert_obj_marker (kvs : JObj) (spec : JValue)
    (h : lookupField "$dateFromString" kvs = some spec)
    (ht : truthy (getProp spec "dateString") = true) :
    convertDateFromString (.obj kvs) = .date (getProp spec "dateString") := by
  simp only [convert_obj_eq, h, ht, if_true]

theorem convert_obj_nonmarker (kvs : JObj) (spec : JValue)
    (h : lookupField "$dateFromString" kvs = some spec)
    (ht : truthy (getProp spec "dateString") = false) :
    convertDateFromString (.obj kvs) = .obj (convertDateFromStringObj kvs) := by
  simp only [convert_obj_eq, h, ht, Bool.false_eq_true, if_false]

mutual

theorem convertTwiceAux : ∀ v : JValue,
    convertDateFromString (convertDateFromString v)
      = stripDates (convertDateFromString v)
  | .null => rfl
  | .undefined => rfl
  | .bool _ => rfl
  | .num _ => rfl
  | .str _ => rfl
  | .date _ => rfl
  | .oid _ => rfl
  | .arr xs => by
      show convertDateFromString (.arr (convertDateFromStringArr xs))
        = stripDates (.arr (convertDateFromStringArr xs))
      simp only [convertDateFromString, stripDates]
      exact congrArg JValue.arr (convertTwiceArrAux xs)
  | .obj kvs => by
      cases hspec : lookupField "$dateFromString" kvs with
      | none =>
          rw [convert_obj_none kvs hspec,
            convert_obj_none (convertDateFromStringObj kvs)
              (by rw [lookupField_convertObj, hspec]; rfl)]
          simp only [stripDates]
          exact congrArg JValue.obj (convertTwiceObjAux kvs)
      | some spec =>
          cases ht : truthy (getProp spec "dateString") with
          | true =>
              rw [convert_obj_marker kvs spec hspec ht]
              simp [convertDateFromString, stripDates]
          | false =>
              rw [convert_obj_nonmarker kvs spec hspec ht,
                convert_obj_nonmarker (convertDateFromStringObj kvs)
                  (convertDateFromString spec)
                  (by rw [lookupField_convertObj, hspec]; rfl)
                  (getDateString_convert_falsy spec ht)]
              simp only [stripDates]
              exact congrArg JValue.obj (convertTwiceObjAux kvs)

theorem convertTwiceArrAux : ∀ xs : JArr,
    convertDateFromStringArr (convertDateFromStringArr xs)
      = stripDatesArr (convertDateFromStringArr xs)
  | .nil => rfl
  | .cons x xs => by
      simp only [convertDateFromStringArr, stripDatesArr]
      exact congrArg₂ JArr.cons (convertTwiceAux x) (convertTwiceArrAux xs)

theorem convertTwiceObjAux : ∀ kvs : JObj,
    convertDateFromStringObj (convertDateFromStringObj kvs)
      = stripDatesObj (convertDateFromStringObj kvs)
  | .nil => rfl
  | .cons k v tl => by
      simp only [convertDateFromStringObj, stripDatesObj]
      rw [convertTwiceAux v, convertTwiceObjAux tl]

end

theorem numOr10_ne_zero (v : JValue) : numOr10 v ≠ 0 := by
  cases h : jsNumber v with
  | none => simp [numOr10, h]
  | some n =>
      by_cases hn : n = 0 <;> simp [numOr10, h, hn]

theorem fkClamp_effLimit (v : JValue) :
    fkClamp (effLimit v 100) = effLimit v 100 := by
  have h0 : numOr10 v ≠ 0 := numOr10_ne_zero v
  unfold fkClamp effLimit
  rcases le_or_lt (numOr10 v) 100 with h | h
  · rw [min_eq_left h, if_neg h0, min_eq_left h]
  · rw [min_eq_right h.le]
    norm_num

theorem convert_sentinel (s : String) :
    convertDateFromString (sentinelFilter s) = sentinelFilter s := by
  simp [sentinelFilter, convert_obj_eq, lookupField, convertDateFromStringObj,
    convertDateFromString]

theorem fkParts_sentinel (s : String) : fkParts (sentinelFilter s) = none := by
  simp [fkParts, sentinelFilter, getProp, lookupField, truthy]

theorem hasKey_convert (k : String) (f : JValue) (h : hasKey k f = false) :
    hasKey k (convertDateFromString f) = false := by
  cases f with
  | obj kvs =>
      rw [convert_obj_eq]
      cases hspec : lookupField "$dateFromString" kvs with
      | none =>
          dsimp only
          simpa [hasKey, lookupField_convertObj] using h
      | some spec =>
          dsimp only
          cases ht : truthy (getProp spec "dateString") with
          | true => simp [hasKey]
          | false =>
              simp only [Bool.false_eq_true, if_false]
              simpa [hasKey, lookupField_convertObj] using h
  | arr xs => simp [convertDateFromString, hasKey]
  | date a => simp [convertDateFromString, hasKey, lookupField]
  | oid o => simp [convertDateFromString, hasKey, lookupField]
  | null => simp [convertDateFromString, hasKey]
  | undefined => simp [convertDateFromString, hasKey]
  | bool b => simp [convertDateFromString, hasKey]
  | num n => simp [convertDateFromString, hasKey]
  | str s => simp [convertDateFromString, hasKey]

theorem lookupField_removeField_ne (k k' : String) (hne : k' ≠ k) :
    ∀ kvs : JObj, lookupField k' (removeField k kvs) = lookupField k' kvs
  | .nil => rfl
  | .cons key v tl => by
      by_cases h : key = k
      · have hk : key ≠ k' := by rw [h]; exact Ne.symm hne
        simp only [removeField]
        rw [if_pos h]
        simp [lookupField, hk, lookupField_removeField_ne k k' hne tl]
      · simp only [removeField]
        rw [if_neg h]
        by_cases h' : key = k'
        · simp [lookupField, h']
        · simp [lookupField, h', lookupField_removeField_ne k k' hne tl]

theorem lookupField_appendField_ne (k k' : String) (v : JValue)
    (hne : k' ≠ k) :
    ∀ kvs : JObj, lookupField k' (kvs.appendField k v) = lookupField k' kvs
  | .nil => by simp [JObj.appendField, lookupField, Ne.symm hne]
  | .cons key w tl => by
      by_cases h' : key = k'
      · simp [JObj.appendField, lookupField, h']
      · simp [JObj.appendField, lookupField, h',
          lookupField_appendField_ne k k' v hne tl]

theorem getProp_setField_ne (k k' : String) (v : JValue) (kvs : JObj)
    (hne : k' ≠ k) :
    getProp (setField k v (.obj kvs)) k' = getProp (.obj kvs) k' := by
  simp [setField, getProp, lookupField_appendField_ne k k' v hne,
    lookupField_removeField_ne k k' hne]

theorem searchUsers_count_eq_length (find : Engine) (pii : Bool)
    (f lr : JValue) :
    (searchUsers find pii f lr).resp.count
      = (searchUsers find pii f lr).resp.results.length := by
  unfold searchUsers
  split
  · unfold processForeignKeyQuery
    dsimp only
    split
    · split
      · simp
      · split <;> simp
    · split
      · split
        · simp
        · split <;> simp
      · simp
  · simp

theorem searchUsers_sentinel_run (find : Engine) (pii : Bool) (s : String)
    (lr : JValue) (hs : find "users" (sentinelFilter s) = []) :
    searchUsers find pii (sentinelFilter s) lr
      = { resp := ⟨0, []⟩,
          reads := [⟨"users", sentinelFilter s, some (effLimit lr 100)⟩] } := by
  unfold searchUsers
  rw [fkParts_sentinel]
  dsimp only
  rw [convert_sentinel, hs]
  simp [takeLimit]

/-!
Claim theorems.
-/

/-- C9, counterexample: the Date-Literal Normalizer is not idempotent.
Applying it to a date-construct marker yields a native Date; applying it
a second time copies that Date key-by-key into the empty plain object
(Dates have no enumerable own properties), so the second application does
not leave the once-normalized output unchanged. -/
theorem claim9_counterexample :
    convertDateFromString (convertDateFromString dateMarkerExample)
        ≠ convertDateFromString dateMarkerExample
      ∧ convertDateFromString dateMarkerExample
          = .date (.str "2025-11-01T00:00:00Z")
      ∧ convertDateFromString (convertDateFromString dateMarkerExample)
          = .obj .nil := by
  decide

/-- C9, amended: applying the Date-Literal Normalizer twice equals
stripping every native Date (and ObjectId) from the once-normalized
output, replacing each by the empty plain object; in particular double
application equals single application exactly on outputs containing no
native date value. -/
theorem claim9_theorem (x : JValue) :
    convertDateFromString (convertDateFromString x)
      = stripDates (convertDateFromString x) :=
  convertTwiceAux x

/-- C1, counterexample: with the PII flag false, a search operation
returns an identity record that still contains the compensation (Salary)
attribute; only the contact email attribute is removed. -/
theorem claim1_counterexample :
    (searchUsers userDocEngine false (.obj .nil) (.num 10)).resp.results
        = [.obj (.cons "Name" (.str "A") (.cons "Salary" (.num 100) .nil))]
      ∧ hasKey "Salary"
          (.obj (.cons "Name" (.str "A") (.cons "Salary" (.num 100) .nil)))
          = true := by
  decide

/-- C1, amended: with the PII flag false the redactor removes the contact
email attribute (and every record a users search returns lacks it), but
not the compensation attribute; with the flag true records pass through
unchanged. -/
theorem claim1_theorem :
    (∀ doc : JValue, hasKey "email" (hideSensitive false doc) = false)
      ∧ (∀ doc : JValue, hideSensitive true doc = doc)
      ∧ (∀ (find : Engine) (f lr r : JValue),
          r ∈ (searchUsers find false f lr).resp.results →
          hasKey "email" r = false) := by
  refine ⟨hasKey_email_hideSensitive, fun doc => rfl, ?_⟩
  intro find f lr r hr
  obtain ⟨u, hu⟩ := mem_searchUsers_results find false f lr r hr
  rw [hu]
  exact hasKey_email_hideSensitive u

/-- C1, witness: the amended redaction theorem applied to the concrete
sample record returned by the sample search. -/
theorem claim1_witness :
    hasKey "email"
      (.obj (.cons "Name" (.str "A") (.cons "Salary" (.num 100) .nil)))
      = false :=
  claim1_theorem.2.2 userDocEngine (.obj .nil) (.num 10)
    (.obj (.cons "Name" (.str "A") (.cons "Salary" (.num 100) .nil)))
    (by decide)

set_option maxRecDepth 4096 in
/-- C2, counterexample: a users search whose translated query is the
no-match sentinel still issues one database read (the sentinel is
executed as an ordinary filter, not short-circuited). -/
theorem claim2_counterexample :
    isNoMatchSentinel (sentinelFilter "intentionally_no_match_on_parse_error")
        = true
      ∧ (searchUsers emptyEngine false
            (sentinelFilter "intentionally_no_match_on_parse_error")
            (.num 10)).reads.length = 1 := by
  decide

/-- C2, amended: the sentinel query is executed verbatim against the
users collection as exactly one read with the clamped limit (date
normalization leaves it unchanged); whenever the store holds no document
whose identifier equals the sentinel string, the response is a count of 0
with an empty result list. -/
theorem claim2_theorem (find : Engine) (allowPII : Bool) (s : String)
    (limitReq : JValue)
    (hs : find "users" (sentinelFilter s) = []) :
    searchUsers find allowPII (sentinelFilter s) limitReq
      = { resp := ⟨0, []⟩,
          reads := [⟨"users", sentinelFilter s,
            some (effLimit limitReq 100)⟩] } :=
  searchUsers_sentinel_run find allowPII s limitReq hs

/-- C2, witness: the amended sentinel theorem applied to a store with no
matching document. -/
theorem claim2_witness :
    searchUsers emptyEngine false
        (sentinelFilter "intentionally_no_match_on_api_error") (.num 10)
      = { resp := ⟨0, []⟩,
          reads := [⟨"users",
            sentinelFilter "intentionally_no_match_on_api_error",
            some (effLimit (.num 10) 100)⟩] } :=
  claim2_theorem emptyEngine false "intentionally_no_match_on_api_error"
    (.num 10) rfl

/-- C4, counterexample: runMongoQuery treats the empty-object query as a
no-match decision: against a store holding one matching document it
returns count 0 with an empty list and performs zero database reads,
instead of executing the query. -/
theorem claim4_counterexample :
    runMongoQuery userDocEngine "users" (.obj .nil) 10 = (⟨0, []⟩, [])
      ∧ (userDocEngine "users" (.obj .nil)).length = 1 := by
  decide

/-- C4, amended: the index.js search handlers forward the empty object
for execution (one read with the empty filter and the clamped limit),
but runMongoQuery in the auxiliary server short-circuits the empty object
to a count of 0 with zero reads. -/
theorem claim4_theorem :
    (∀ (find : Engine) (pii : Bool) (lr : JValue),
        (searchUsers find pii (.obj .nil) lr).reads
          = [⟨"users", .obj .nil, some (effLimit lr 100)⟩])
      ∧ (∀ (find : Engine) (pii : Bool) (lr : JValue),
          (searchEvents find pii (.obj .nil) lr false).reads
            = [⟨"events", .obj .nil, some (effLimit lr 100)⟩])
      ∧ (∀ (find : Engine) (pii : Bool) (lr : JValue),
          (searchDating find pii (.obj .nil) lr false).reads
            = [⟨"datings", .obj .nil, some (effLimit lr 100)⟩])
      ∧ (∀ (find : Engine) (pii : Bool) (ef df lr : JValue) (pop : Bool),
          (searchAll find pii (.obj .nil) ef df lr pop).reads.head?
            = some ⟨"users", .obj .nil, some (effLimit lr 30)⟩)
      ∧ (∀ (find : Engine) (coll : String) (l : Int),
          runMongoQuery find coll (.obj .nil) l = (⟨0, []⟩, [])) := by
  have hconv : convertDateFromString (.obj .nil) = .obj .nil :=
    convert_obj_none .nil rfl
  have hfk : fkParts (.obj .nil) = none := by
    simp [fkParts, getProp, lookupField, truthy]
  refine ⟨?_, ?_, ?_, ?_, ?_⟩
  · intro find pii lr
    unfold searchUsers
    rw [hfk]
    dsimp only
    rw [hconv]
  · intro find pii lr
    unfold searchEvents
    rw [hconv]
    simp
  · intro find pii lr
    unfold searchDating
    rw [hconv]
    simp
  · intro find pii ef df lr pop
    unfold searchAll
    rw [hfk]
    dsimp only
    rw [hconv]
    simp [truthy]
  · intro find coll l
    simp [runMongoQuery]

/-- C8, counterexample: a requested limit of -5 is non-positive yet does
not fall back to the default of 10: the effective limit is -5, and it is
what the users read receives. -/
theorem claim8_counterexample :
    effLimit (.num (-5)) 100 = -5
      ∧ (searchUsers emptyEngine false (.obj .nil) (.num (-5))).reads
          = [⟨"users", .obj .nil, some (-5)⟩]
      ∧ effLimit (.num (-5)) 100 ≠ 10 := by
  decide

/-- C8, amended: the effective limit is min(Number(limit) or-else 10,
ceiling); non-numeric and zero requested limits fall back to the default
10, but negative requested limits are not caught and become the effective
limit themselves. -/
theorem claim8_theorem (v : JValue) (ceiling : Int) (hc : 10 ≤ ceiling) :
    effLimit v ceiling = min (numOr10 v) ceiling
      ∧ (jsNumber v = none → effLimit v ceiling = 10)
      ∧ (jsNumber v = some 0 → effLimit v ceiling = 10)
      ∧ (∀ n : Int, jsNumber v = some n → n < 0 → effLimit v ceiling = n) := by
  refine ⟨rfl, ?_, ?_, ?_⟩
  · intro h
    unfold effLimit numOr10
    rw [h]
    exact min_eq_left hc
  · intro h
    unfold effLimit numOr10
    rw [h]
    exact min_eq_left hc
  · intro n h hn
    unfold effLimit numOr10
    rw [h]
    have hn0 : ¬ n = 0 := by omega
    simp only [hn0, if_false]
    exact min_eq_left (by omega)

/-- C8, witness: the amended clamp theorem applied at a non-numeric, a
zero, and a negative requested limit. -/
theorem claim8_witness :
    effLimit (.str "abc") 100 = 10
      ∧ effLimit (.num 0) 30 = 10
      ∧ effLimit (.num (-7)) 100 = -7 :=
  ⟨(claim8_theorem (.str "abc") 100 (by norm_num)).2.1 (by decide),
   (claim8_theorem (.num 0) 30 (by norm_num)).2.2.1 (by decide),
   (claim8_theorem (.num (-7)) 100 (by norm_num)).2.2.2 (-7) (by decide)
     (by norm_num)⟩

/-- C5: every failure of the external translator step (API error, empty
output, unparsable output) degrades to a no-match sentinel query; the
users search on that query still returns the well-formed success envelope
(count equal to the result-list length, count 0 when the store holds no
document with the sentinel identifier), never a request error. -/
theorem claim5_theorem (step : TranslatorStep)
    (hfail : step = .apiError ∨ step = .emptyText ∨ step = .parseError) :
    isNoMatchSentinel (parsePromptToMongoQuery step) = true
      ∧ (∀ (find : Engine) (pii : Bool) (lr : JValue),
          (searchUsers find pii (parsePromptToMongoQuery step) lr).resp.count
            = (searchUsers find pii
                (parsePromptToMongoQuery step) lr).resp.results.length)
      ∧ (∀ (find : Engine) (pii : Bool) (lr : JValue),
          find "users" (parsePromptToMongoQuery step) = [] →
          (searchUsers find pii (parsePromptToMongoQuery step) lr).resp
            = ⟨0, []⟩) := by
  have main : ∀ s : String,
      isNoMatchSentinel (sentinelFilter s) = true →
      isNoMatchSentinel (sentinelFilter s) = true
        ∧ (∀ (find : Engine) (pii : Bool) (lr : JValue),
            (searchUsers find pii (sentinelFilter s) lr).resp.count
              = (searchUsers find pii (sentinelFilter s) lr).resp.results.length)
        ∧ (∀ (find : Engine) (pii : Bool) (lr : JValue),
            find "users" (sentinelFilter s) = [] →
            (searchUsers find pii (sentinelFilter s) lr).resp = ⟨0, []⟩) := by
    intro s hs0
    refine ⟨hs0, fun find pii lr => searchUsers_count_eq_length find pii _ lr,
      fun find pii lr hs => ?_⟩
    rw [searchUsers_sentinel_run find pii s lr hs]
  rcases hfail with h | h | h <;> subst h <;> exact main _ (by decide)

/-- C5, witness: the failure theorem applied at the API-error outcome and
an empty store. -/
theorem claim5_witness :
    isNoMatchSentinel (parsePromptToMongoQuery .apiError) = true
      ∧ (searchUsers emptyEngine false
          (parsePromptToMongoQuery .apiError) (.num 10)).resp = ⟨0, []⟩ :=
  ⟨(claim5_theorem .apiError (Or.inl rfl)).1,
   (claim5_theorem .apiError (Or.inl rfl)).2.2 emptyEngine false (.num 10) rfl⟩

theorem getProp_setField_setField (k1 k2 : String) (v1 v2 : JValue)
    (kvs : JObj) (h12 : k1 ≠ k2) :
    getProp (setField k2 v2 (setField k1 v1 (.obj kvs))) k1 = v1 := by
  have hx : setField k1 v1 (.obj kvs)
      = .obj ((removeField k1 kvs).appendField k1 v1) := rfl
  rw [hx, getProp_setField_ne k2 k1 v2 _ h12, ← hx, getProp_setField_obj]

set_option maxRecDepth 4096 in
/-- C6, counterexample: a pairing record with a dangling first-partner
reference is populated with an undefined partner slot (absent once
serialized), not with a placeholder carrying the original identifier. -/
theorem claim6_counterexample :
    (searchDating danglingEngine false (.obj .nil) (.num 10) true).resp.results
        = [.obj (.cons "_id" (.oid "d1") (.cons "Male_id" (.oid "aaa")
            (.cons "Male" .undefined (.cons "Female" .null .nil))))]
      ∧ getProp (.obj (.cons "_id" (.oid "d1") (.cons "Male_id" (.oid "aaa")
            (.cons "Male" .undefined (.cons "Female" .null .nil))))) "Male"
          = .undefined
      ∧ JValue.undefined ≠ .obj (.cons "_id" (.oid "aaa") .nil) := by
  decide

/-- C6, amended: a dangling participant reference in a gathering record
is populated with the placeholder carrying only the original identifier,
and populated pages never omit records (the handlers are total, so no
invocation throws); but a dangling partner reference in a pairing record
yields an undefined slot (absent after serialization), not a placeholder,
and an absent partner reference yields null. -/
theorem claim6_theorem :
    (∀ (usersById : List (String × JValue)) (id : JValue),
        alistGet usersById (jsToString id) = none →
        populateParticipant usersById id = .obj (.cons "_id" id .nil))
      ∧ (∀ (usersById : List (String × JValue)) (kvs : JObj),
          getProp (populateEventDoc usersById (.obj kvs)) "participants"
            = .arr (JArr.ofList ((participantIdList (.obj kvs)).map
                (populateParticipant usersById))))
      ∧ (∀ (find : Engine) (pii : Bool) (f lr : JValue),
          (searchEvents find pii f lr true).resp.results.length
            = (eventsPage find f lr).length)
      ∧ (∀ (usersById : List (String × JValue)) (id : JValue),
          truthy id = true → alistGet usersById (jsToString id) = none →
          populatePartner usersById id = .undefined)
      ∧ (∀ (usersById : List (String × JValue)) (kvs : JObj),
          getProp (populateDatingDoc usersById (.obj kvs)) "Male"
              = populatePartner usersById (getProp (.obj kvs) "Male_id")
            ∧ getProp (populateDatingDoc usersById (.obj kvs)) "Female"
              = populatePartner usersById (getProp (.obj kvs) "Female_id"))
      ∧ (∀ (find : Engine) (pii : Bool) (f lr : JValue),
          (searchDating find pii f lr true).resp.results.length
            = (datingsPage find f lr).length) := by
  refine ⟨?_, ?_, ?_, ?_, ?_, ?_⟩
  · intro usersById id h
    unfold populateParticipant
    rw [h]
    rfl
  · intro usersById kvs
    exact getProp_setField_obj _ _ _
  · intro find pii f lr
    unfold searchEvents
    dsimp only
    split <;> simp [eventsPage]
  · intro usersById id ht h
    unfold populatePartner
    rw [if_pos ht, h]
    rfl
  · intro usersById kvs
    exact ⟨getProp_setField_setField "Male" "Female" _ _ _ (by decide),
      getProp_setField_obj _ _ _⟩
  · intro find pii f lr
    unfold searchDating
    dsimp only
    split <;> simp [datingsPage]

/-- C6, witness: the amended populate theorem applied at an empty lookup
map for one participant and one partner reference. -/
theorem claim6_witness :
    populateParticipant [] (.oid "x") = .obj (.cons "_id" (.oid "x") .nil)
      ∧ populatePartner [] (.oid "y") = .undefined :=
  ⟨claim6_theorem.1 [] (.oid "x") rfl,
   claim6_theorem.2.2.2.1 [] (.oid "y") rfl rfl⟩

theorem mcpPopulateEvent_reads_count (find : Engine) (pii : Bool)
    (ev : JValue) :
    ((mcpPopulateEvent find pii ev).2.filter
        (fun op => op.coll = "users")).length
      = if hasParticipantArray ev then 1 else 0 := by
  unfold mcpPopulateEvent hasParticipantArray
  cases h : getProp ev "participant_ids" <;> simp

theorem mcp_flatMap_reads_count (find : Engine) (pii : Bool) :
    ∀ l : List JValue,
      (((l.map (mcpPopulateEvent find pii)).flatMap (fun p => p.2)).filter
          (fun op => op.coll = "users")).length
        = (l.filter (fun ev => hasParticipantArray ev)).length
  | [] => rfl
  | ev :: rest => by
      simp only [List.map_cons, List.flatMap_cons, List.filter_append,
        List.length_append, List.filter_cons]
      rw [mcpPopulateEvent_reads_count, mcp_flatMap_reads_count find pii rest]
      by_cases h : hasParticipantArray ev = true <;> simp [h, Nat.add_comm]

set_option maxRecDepth 4096 in
/-- C7, counterexample: the search_events MCP tool handler with populate
on issues one identity read per event of the page: over a two-event page
it issues two users reads, not one batched read. -/
theorem claim7_counterexample :
    ((mcpSearchEvents twoEventsEngine false (.obj .nil) (.num 10)
          true).reads.filter (fun op => op.coll = "users")).length = 2
      ∧ (mcpSearchEvents twoEventsEngine false (.obj .nil) (.num 10)
          true).resp.results.length = 2 := by
  decide

/-- C7, amended: the express search-events handler with populate on and a
non-empty page issues exactly one identity read, over exactly the
deduplicated participant identifier set of the page; but the search_events
MCP tool handler issues one identity read per event that carries a
participant array (an N-read loop, not batched). -/
theorem claim7_theorem :
    (∀ (find : Engine) (pii : Bool) (f lr : JValue),
        (eventsPage find f lr).isEmpty = false →
        (searchEvents find pii f lr true).reads
          = [⟨"events", convertDateFromString f, some (effLimit lr 100)⟩,
             ⟨"users",
               idFilter ((eventUserIdStrings (eventsPage find f lr)).map
                 JValue.oid), none⟩])
      ∧ (∀ (find : Engine) (pii : Bool) (f lr : JValue),
          ((mcpSearchEvents find pii f lr true).reads.filter
              (fun op => op.coll = "users")).length
            = ((eventsPage find f lr).filter
                (fun ev => hasParticipantArray ev)).length) := by
  constructor
  · intro find pii f lr h
    unfold eventsPage at h
    unfold searchEvents
    dsimp only
    rw [if_pos ⟨rfl, by simp [h]⟩]
    simp [eventsPage]
  · intro find pii f lr
    unfold mcpSearchEvents
    dsimp only
    rw [if_pos rfl]
    simp only [List.filter_cons]
    rw [show (decide (("events" : String) = "users")) = false from by decide]
    simp only [Bool.false_eq_true, if_false]
    rw [mcp_flatMap_reads_count]
    simp [eventsPage]

/-- C7, witness: the amended batching theorem applied to the concrete
two-event store. -/
theorem claim7_witness :
    (searchEvents twoEventsEngine false (.obj .nil) (.num 10) true).reads
      = [⟨"events", .obj .nil, some 10⟩,
         ⟨"users", idFilter [.oid "u1", .oid "u2"], none⟩] := by
  have h := claim7_theorem.1 twoEventsEngine false (.obj .nil) (.num 10)
    (by decide)
  rw [h]
  decide

/-- C10, counterexample: with an identity record whose display name
case-insensitively contains the free text, the executed gathering filter
is still the date-normalized translated query with no OR-list at all: no
name-match clause is unioned in. -/
theorem claim10_counterexample :
    someNameMatches (johnEngine "users" (.obj .nil)) "john" = true
      ∧ (searchEvents johnEngine false eventsFilterExample (.num 10)
            true).reads.head?
          = some ⟨"events", eventsFilterExample, some 10⟩
      ∧ hasKey "$or" (convertDateFromString eventsFilterExample) = false := by
  decide

/-- C10, amended: no name-match union augmentation exists in the code:
the gathering and pairing searches always execute exactly the
date-normalized translated query (a function of the translated query
alone, independent of the identity collection), and date normalization
never introduces a top-level OR-list. -/
theorem claim10_theorem :
    (∀ (find : Engine) (pii : Bool) (f lr : JValue) (pop : Bool),
        (searchEvents find pii f lr pop).reads.head?
          = some ⟨"events", convertDateFromString f, some (effLimit lr 100)⟩)
      ∧ (∀ (find : Engine) (pii : Bool) (f lr : JValue) (pop : Bool),
          (searchDating find pii f lr pop).reads.head?
            = some ⟨"datings", convertDateFromString f,
                some (effLimit lr 100)⟩)
      ∧ (∀ f : JValue, hasKey "$or" f = false →
          hasKey "$or" (convertDateFromString f) = false) := by
  refine ⟨?_, ?_, fun f h => hasKey_convert "$or" f h⟩
  · intro find pii f lr pop
    unfold searchEvents
    dsimp only
    split <;> rfl
  · intro find pii f lr pop
    unfold searchDating
    dsimp only
    split <;> rfl

/-- C10, witness: the amended no-augmentation theorem applied at the
sample translated filter. -/
theorem claim10_witness :
    hasKey "$or" (convertDateFromString eventsFilterExample) = false :=
  claim10_theorem.2.2 eventsFilterExample (by decide)

theorem hasKey_of_truthy_getProp (f : JValue) (k : String)
    (h : truthy (getProp f k) = true) : hasKey k f = true := by
  cases f with
  | obj kvs =>
      cases hl : lookupField k kvs with
      | none =>
          have hg : getProp (.obj kvs) k = .undefined := by
            show (lookupField k kvs).getD .undefined = .undefined
            rw [hl]
            rfl
          rw [hg] at h
          simp [truthy] at h
      | some w => simp [hasKey, hl]
  | null => simp [getProp, truthy] at h
  | undefined => simp [getProp, truthy] at h
  | bool b => simp [getProp, truthy] at h
  | num n => simp [getProp, truthy] at h
  | str s => simp [getProp, truthy] at h
  | date a => simp [getProp, truthy] at h
  | oid o => simp [getProp, truthy] at h
  | arr xs => simp [getProp, truthy] at h

theorem hasKey_idFilter_fkq (ids : List JValue) :
    hasKey "__foreign_key_query" (idFilter ids) = false := by
  simp [idFilter, hasKey, lookupField]

/-- C3: a users search whose translated query carries a foreign-key
redirect marker naming events or dating first reads the named secondary
collection with the date-normalized criteria, then (if at all) reads the
users collection only with the batched filter over the deduplicated
foreign identifier set of the secondary page, bounded by the clamped
limit; it never reads the users collection with the original filter. -/
theorem claim3_theorem (find : Engine) (pii : Bool)
    (filter0 criteria lr : JValue) (name : String)
    (hfk : fkParts filter0 = some (.str name, criteria))
    (hname : name = "events" ∨ name = "dating") :
    (searchUsers find pii filter0 lr).reads.head?
        = some ⟨fkSecondaryColl name, convertDateFromString criteria, none⟩
      ∧ (∀ op ∈ (searchUsers find pii filter0 lr).reads,
          op.coll = "users" →
          op.filter = idFilter (fkCollectedIds name
              (find (fkSecondaryColl name) (convertDateFromString criteria)))
            ∧ op.limitArg = some (effLimit lr 100))
      ∧ (∀ op ∈ (searchUsers find pii filter0 lr).reads,
          ¬ (op.coll = "users" ∧ op.filter = filter0)) := by
  have hparts := hfk
  unfold fkParts at hparts
  split at hparts
  case isFalse => simp at hparts
  case isTrue hcond =>
  have htr : truthy (getProp filter0 "__foreign_key_query") = true := hcond.2.1
  have hhk : hasKey "__foreign_key_query" filter0 = true :=
    hasKey_of_truthy_getProp filter0 "__foreign_key_query" htr
  have hne0 : ∀ ids : List JValue, idFilter ids ≠ filter0 := by
    intro ids he
    rw [← he] at hhk
    rw [hasKey_idFilter_fkq ids] at hhk
    exact Bool.false_ne_true hhk
  unfold searchUsers
  rw [hfk]
  dsimp only
  rcases hname with hn | hn <;> subst hn
  · unfold processForeignKeyQuery
    rw [fkClamp_effLimit]
    dsimp only
    rw [if_pos rfl]
    have hsec : fkSecondaryColl "events" = "events" := by decide
    have hcol : ∀ page : List JValue,
        fkCollectedIds "events" page = (eventUserIdStrings page).map JValue.oid :=
      fun page => by simp [fkCollectedIds]
    rw [hsec, hcol]
    split
    · refine ⟨rfl, ?_, ?_⟩
      · intro op hop hcoll
        simp only [List.mem_singleton] at hop
        subst hop
        simp at hcoll
      · intro op hop hcontra
        simp only [List.mem_singleton] at hop
        subst hop
        simp at hcontra
    · split
      · refine ⟨rfl, ?_, ?_⟩
        · intro op hop hcoll
          simp only [List.mem_singleton] at hop
          subst hop
          simp at hcoll
        · intro op hop hcontra
          simp only [List.mem_singleton] at hop
          subst hop
          simp at hcontra
      · refine ⟨rfl, ?_, ?_⟩
        · intro op hop hcoll
          simp only [List.mem_cons, List.mem_singleton] at hop
          rcases hop with hop | hop | hop
          · subst hop; simp at hcoll
          · subst hop; exact ⟨rfl, rfl⟩
          · simp at hop
        · intro op hop hcontra
          simp only [List.mem_cons, List.mem_singleton] at hop
          rcases hop with hop | hop | hop
          · subst hop; simp at hcontra
          · subst hop; exact hne0 _ hcontra.2
          · simp at hop
  · unfold processForeignKeyQuery
    rw [fkClamp_effLimit]
    dsimp only
    rw [if_neg (show ¬ (JValue.str "dating" = JValue.str "events") from
      by decide), if_pos rfl]
    have hsec : fkSecondaryColl "dating" = "datings" := by decide
    have hcol : ∀ page : List JValue,
        fkCollectedIds "dating" page
          = (datingUserIdStrings page).map JValue.oid :=
      fun page => by simp [fkCollectedIds]
    rw [hsec, hcol]
    split
    · refine ⟨rfl, ?_, ?_⟩
      · intro op hop hcoll
        simp only [List.mem_singleton] at hop
        subst hop
        simp at hcoll
      · intro op hop hcontra
        simp only [List.mem_singleton] at hop
        subst hop
        simp at hcontra
    · split
      · refine ⟨rfl, ?_, ?_⟩
        · intro op hop hcoll
          simp only [List.mem_singleton] at hop
          subst hop
          simp at hcoll
        · intro op hop hcontra
          simp only [List.mem_singleton] at hop
          subst hop
          simp at hcontra
      · refine ⟨rfl, ?_, ?_⟩
        · intro op hop hcoll
          simp only [List.mem_cons, List.mem_singleton] at hop
          rcases hop with hop | hop | hop
          · subst hop; simp at hcoll
          · subst hop; exact ⟨rfl, rfl⟩
          · simp at hop
        · intro op hop hcontra
          simp only [List.mem_cons, List.mem_singleton] at hop
          rcases hop with hop | hop | hop
          · subst hop; simp at hcontra
          · subst hop; exact hne0 _ hcontra.2
          · simp at hop

/-- C3, witness: the redirect theorem applied to the concrete store whose
events collection matches one gathering record. -/
theorem claim3_witness :
    (searchUsers fkEngine false fkFilterExample (.num 5)).reads.head?
      = some ⟨"events", fkCriteriaExample, none⟩ := by
  have h := (claim3_theorem fkEngine false fkFilterExample fkCriteriaExample
    (.num 5) "events" (by decide) (Or.inl rfl)).1
  rw [h]
  decide

end ForeignKeyMongo
